import Mathlib

/-!
Shallow embedding of the renderer orchestration layer of the webgpu-examples
repository (the `xx-dev` renderer and the `03-visual-debugging` standard
shaders), together with proofs of the specified properties.

The embedding follows the JavaScript / WGSL sources:
  * `src/xx-dev/src/Renderer.js` — selection state machine, mesh packing,
    per-frame control flow, normal-matrix computation;
  * `src/xx-dev/src/WireframeRenderPass.js` and
    `src/xx-dev/src/NormalsRenderPass.js` — per-mesh draw-range clamping;
  * `src/xx-dev/src/SelectRenderPass.js` — pick-result readback;
  * `src/03-visual-debugging/src/standard-shaders.wgsl` — point-light shading.

Shader floating-point arithmetic is modelled by exact real arithmetic; GPU
machine integers that cannot overflow in the modelled ranges are Nat/Int.
-/

namespace WebGpu

/-! ## Mesh ranges and the selection state machine (`Renderer.js`) -/

/-- One entry of `#gpuMeshData.meshList` as pushed by `Renderer.init`:
the contiguous slice of the shared vertex buffer that belongs to one mesh. -/
structure MeshRange where
  firstVertex : Nat
  vertexCount : Nat
  deriving DecidableEq, Repr

/-- The selection mode enum of `Renderer.js` / `ObjectSelector.js`. -/
inductive SelectionMode where
  | Face
  | Object
  deriving DecidableEq, Repr

/-- The mutable selection state held by the renderer:
`#selectionMode`, `#firstSelectedVertex`, `#numSelectedVertices`.
The two vertex fields are JavaScript numbers, modelled as integers. -/
structure SelState where
  mode : SelectionMode
  firstSelectedVertex : Int
  numSelectedVertices : Int
  deriving DecidableEq, Repr

/-- The `newFirstSelectedVertex` / `newNumSelectedVertices` computation inside
`Renderer.#selectVerticesFor` (identical in `ObjectSelector.#selectVerticesFor`):
Face mode takes the picked vertex and a count of 3; Object mode scans the mesh
list in order and takes the full range of the first mesh containing the picked
vertex (the loop breaks at the first hit), defaulting to `(0, 0)`. -/
def newSelection (meshList : List MeshRange) (mode : SelectionMode)
    (selectedVertex : Int) : Int × Int :=
  match mode with
  | .Face => (selectedVertex, 3)
  | .Object =>
    match meshList.find? (fun m =>
        decide ((m.firstVertex : Int) ≤ selectedVertex) &&
        decide (selectedVertex < (m.firstVertex : Int) + (m.vertexCount : Int))) with
    | some m => ((m.firstVertex : Int), (m.vertexCount : Int))
    | none => (0, 0)

/-- `Renderer.#selectVerticesFor` (identical in `ObjectSelector.js`): a negative
vertex clears the selection; otherwise the newly computed range is compared with
the current one — equal ranges toggle the selection off, different ranges become
the new selection. -/
def selectVerticesFor (meshList : List MeshRange) (st : SelState)
    (selectedVertex : Int) : SelState :=
  if selectedVertex < 0 then
    { st with firstSelectedVertex := 0, numSelectedVertices := 0 }
  else
    let n := newSelection meshList st.mode selectedVertex
    if n.1 = st.firstSelectedVertex ∧ n.2 = st.numSelectedVertices then
      { st with firstSelectedVertex := 0, numSelectedVertices := 0 }
    else
      { st with firstSelectedVertex := n.1, numSelectedVertices := n.2 }

/-- The tail of `Renderer.#selectObject`: the picked triangle id is turned into
a vertex index by `triangleId * 3` and handed to `#selectVerticesFor`. -/
def resolvePick (meshList : List MeshRange) (st : SelState)
    (triangleId : Int) : SelState :=
  selectVerticesFor meshList st (triangleId * 3)

/-- The `selectionModeSwitch` branch of `Renderer.updateWithInputState`:
the mode is toggled by `setSelectionMode`, then `#selectVerticesFor(-1)`
clears the selection. -/
def switchSelectionMode (meshList : List MeshRange) (st : SelState) : SelState :=
  let st1 := { st with
    mode := if st.mode = SelectionMode.Face then SelectionMode.Object
            else SelectionMode.Face }
  selectVerticesFor meshList st1 (-1)

/-- The selection operations reachable through the renderer's public flow:
resolving a pick with some triangle id, switching the selection mode, and an
explicit clear (`#selectVerticesFor(-1)`). -/
inductive SelOp where
  | pick (triangleId : Int)
  | modeSwitch
  | clear
  deriving DecidableEq, Repr

/-- One selection operation applied to the selection state. -/
def selStep (meshList : List MeshRange) (st : SelState) (op : SelOp) : SelState :=
  match op with
  | .pick t => resolvePick meshList st t
  | .modeSwitch => switchSelectionMode meshList st
  | .clear => selectVerticesFor meshList st (-1)

/-- The selection state established by the `Renderer` constructor:
Object mode, nothing selected. -/
def initialSelState : SelState :=
  { mode := SelectionMode.Object, firstSelectedVertex := 0, numSelectedVertices := 0 }

/-- Runs a sequence of selection operations from the constructor state. -/
def runSelOps (meshList : List MeshRange) (ops : List SelOp) : SelState :=
  ops.foldl (selStep meshList) initialSelState

/-- The selection-shape invariant: the selection is empty, or a single
triangle `(3k, 3)`, or exactly the full range of one packed mesh. -/
def SelInvariant (meshList : List MeshRange) (st : SelState) : Prop :=
  (st.firstSelectedVertex = 0 ∧ st.numSelectedVertices = 0) ∨
  (∃ k : Nat, st.firstSelectedVertex = 3 * (k : Int) ∧ st.numSelectedVertices = 3) ∨
  (∃ m ∈ meshList, st.firstSelectedVertex = (m.firstVertex : Int) ∧
    st.numSelectedVertices = (m.vertexCount : Int))

/-! ## Mesh buffer packing (`Renderer.init`, lines 128–152) -/

/-- One attribute of a vertex-buffer layout descriptor
(`shaderLocation`, `offset`, `format`). -/
structure VertexAttribute where
  shaderLocation : Nat
  offset : Nat
  format : String
  deriving DecidableEq, Repr

/-- A vertex-buffer layout descriptor as returned by `mesh.getVertexLayout()`. -/
structure VertexLayout where
  arrayStride : Nat
  attributes : List VertexAttribute
  deriving DecidableEq, Repr

/-- The per-mesh data `Renderer.init` reads from each scene mesh:
`getVertices().byteLength`, `getVertexCount()`, `getVertexLayout()`. -/
structure MeshSrc where
  byteLength : Nat
  vertexCount : Nat
  layout : VertexLayout
  deriving DecidableEq, Repr

/-- `vbByteSize` in `Renderer.init`: the sum of all meshes' vertex-data byte
lengths, used as the size of the shared vertex buffer. -/
def vbByteSize (meshList : List MeshSrc) : Nat :=
  (meshList.map (·.byteLength)).sum

/-- The packing loop of `Renderer.init`: each mesh is given the range starting
at the accumulated `firstVertex`, which then advances by the mesh's
`vertexCount`. -/
def packRanges : List MeshSrc → Nat → List MeshRange
  | [], _ => []
  | m :: rest, firstVertex =>
    { firstVertex := firstVertex, vertexCount := m.vertexCount } ::
      packRanges rest (firstVertex + m.vertexCount)

/-- The vertex-buffer related output of `Renderer.init`. -/
structure PackOutput where
  vertexBufferLayout : List VertexLayout
  byteSize : Nat
  meshRanges : List MeshRange
  deriving DecidableEq, Repr

/-- `Renderer.init`'s vertex-buffer setup. On an empty mesh list
`meshList[0].getVertexLayout()` faults (`meshList[0]` is `undefined`), modelled
as `none`. Otherwise the pipeline layout is taken from the *first* mesh only
(`[meshList[0].getVertexLayout()]`) — no comparison against the other meshes'
layouts is performed — and all meshes are packed. -/
def initPack (meshList : List MeshSrc) : Option PackOutput :=
  match meshList with
  | [] => none
  | m0 :: _ =>
    some { vertexBufferLayout := [m0.layout],
           byteSize := vbByteSize meshList,
           meshRanges := packRanges meshList 0 }

/-- Two meshes of the list disagree on their vertex layout descriptor. -/
def layoutsDisagree (meshList : List MeshSrc) : Prop :=
  ∃ m1 ∈ meshList, ∃ m2 ∈ meshList, m1.layout ≠ m2.layout

/-! ## Draw-range clamping (`WireframeRenderPass.renderFrame`,
`NormalsRenderPass.renderFrame`) -/

/-- The per-mesh body of the draw loop in `WireframeRenderPass.renderFrame`:
the requested vertex range is clamped to the mesh's own range; an empty clamp
is skipped (`continue`), otherwise
`drawIndexed((lastVertex - firstVertex) * 2, 1, firstVertex * 2)` is issued,
returned here as the pair (index count, first index). -/
def wireframeDrawFor (mesh : MeshRange) (firstVertexToDraw numVerticesToDraw : Nat) :
    Option (Nat × Nat) :=
  let firstVertex := max firstVertexToDraw mesh.firstVertex
  let lastVertex := min (firstVertexToDraw + numVerticesToDraw)
    (mesh.firstVertex + mesh.vertexCount)
  if lastVertex ≤ firstVertex then none
  else some ((lastVertex - firstVertex) * 2, firstVertex * 2)

/-- The draw calls issued by `WireframeRenderPass.renderFrame` for a frame,
in mesh order. -/
def wireframeDraws (meshList : List MeshRange)
    (firstVertexToDraw numVerticesToDraw : Nat) : List (Nat × Nat) :=
  meshList.filterMap (fun mesh => wireframeDrawFor mesh firstVertexToDraw numVerticesToDraw)

/-- The per-mesh body of the draw loop in `NormalsRenderPass.renderFrame`:
same clamp as the wireframe pass; a non-empty clamp issues
`draw(drawTangents ? 6 : 2, lastVertex - firstVertex, 0, firstVertex)`,
returned here as (vertex count, instance count, first vertex, first instance). -/
def normalsDrawFor (mesh : MeshRange) (firstVertexToDraw numVerticesToDraw : Nat)
    (drawTangents : Bool) : Option (Nat × Nat × Nat × Nat) :=
  let firstVertex := max firstVertexToDraw mesh.firstVertex
  let lastVertex := min (firstVertexToDraw + numVerticesToDraw)
    (mesh.firstVertex + mesh.vertexCount)
  if lastVertex ≤ firstVertex then none
  else some ((if drawTangents then 6 else 2), lastVertex - firstVertex, 0, firstVertex)

/-- The draw calls issued by `NormalsRenderPass.renderFrame` for a frame,
in mesh order. -/
def normalsDraws (meshList : List MeshRange)
    (firstVertexToDraw numVerticesToDraw : Nat) (drawTangents : Bool) :
    List (Nat × Nat × Nat × Nat) :=
  meshList.filterMap
    (fun mesh => normalsDrawFor mesh firstVertexToDraw numVerticesToDraw drawTangents)

/-- The set of mesh vertices covered by one wireframe draw call
`(indexCount, firstIndex)`: the index buffer holds two line endpoints per
vertex of the triangle list, so the call covers vertices
`[firstIndex / 2, firstIndex / 2 + indexCount / 2)`. -/
def wireframeDrawWindow (c : Nat × Nat) : Finset Nat :=
  Finset.Ico (c.2 / 2) (c.2 / 2 + c.1 / 2)

/-- The set of mesh vertices covered by one normals draw call
`(vertexCount, instanceCount, firstVertexArg, firstInstance)`: one instance per
mesh vertex, starting at `firstInstance`. -/
def normalsDrawWindow (c : Nat × Nat × Nat × Nat) : Finset Nat :=
  Finset.Ico c.2.2.2 (c.2.2.2 + c.2.1)

/-- Modelled from the spec: the intersection of the requested selection range
with one mesh's own vertex range. -/
def selIntersect (mesh : MeshRange) (firstVertexToDraw numVerticesToDraw : Nat) :
    Finset Nat :=
  Finset.Ico firstVertexToDraw (firstVertexToDraw + numVerticesToDraw) ∩
    Finset.Ico mesh.firstVertex (mesh.firstVertex + mesh.vertexCount)

/-! ## Pick-result readback (`SelectRenderPass.js`) -/

/-- `MAX_UNIT32` in `SelectRenderPass.js`: `Math.pow(2, 32) - 1`, used both as
the clear value of the triangle-id render target and as the sentinel compared
against in `getSelectedTriangleId`. -/
def MAX_UNIT32 : Nat := 2 ^ 32 - 1

/-- `SelectRenderPass.getSelectedTriangleId`, reading from the mapped copy of
the id buffer: the entry at `width * y + x` is compared against the sentinel,
yielding `-1` for the sentinel and the stored id otherwise. An out-of-bounds
read yields JavaScript `undefined`, modelled as `none`. -/
def getSelectedTriangleId (ids : List Nat) (width x y : Nat) : Option Int :=
  match ids[width * y + x]? with
  | none => none
  | some id => some (if id = MAX_UNIT32 then -1 else (id : Int))

/-! ## Per-frame control flow of `Renderer.renderFrame` (async trace)

`Renderer.renderFrame` is an async method; when a pick is pending it invokes
the async method `#selectObject(x, y)` *without* `await`. Under JavaScript
run-to-completion semantics `#selectObject` executes synchronously up to its
first `await` (`queue.onSubmittedWorkDone()`), the awaited GPU promises resolve
only after the current task's synchronous code has finished, and the remaining
segments of `#selectObject` therefore run after `renderFrame`'s own remaining
statements. The trace model below encodes exactly this. -/

/-- The observable actions of one `renderFrame` call and of the pick
resolution it may spawn. -/
inductive FrameAct where
  | updateGpuData
  | selectPassSubmit
  | selectIdRead
  | selectionResolve
  | recordStandardPass
  | recordWireframePass
  | recordNormalsPass
  | drawSubmit
  deriving DecidableEq, Repr

/-- `Renderer.#selectObject` split into its segments between `await`s:
submit the picking pass; (after `onSubmittedWorkDone` and `mapAsync`) read the
picked triangle id; update the selection via `#selectVerticesFor`. -/
def selectObjectSegments : List (List FrameAct) :=
  [[FrameAct.selectPassSubmit], [FrameAct.selectIdRead], [FrameAct.selectionResolve]]

/-- Calling an async function without `await`: its first segment runs
synchronously in the caller's task, the caller's remaining actions follow, and
the callee's post-`await` segments run only afterwards. -/
def callUnawaited (segments : List (List FrameAct)) (callerRest : List FrameAct) :
    List FrameAct :=
  segments.headD [] ++ callerRest ++ (segments.drop 1).flatten

/-- The recording and submission of the frame's single command buffer:
standard pass, wireframe pass, normals pass, then `queue.submit`. -/
def frameDrawActs : List FrameAct :=
  [FrameAct.recordStandardPass, FrameAct.recordWireframePass,
   FrameAct.recordNormalsPass, FrameAct.drawSubmit]

/-- The action trace of one `Renderer.renderFrame` call: update GPU data;
if a pick is pending, start `#selectObject` without `await`; record and submit
the draw command buffer. -/
def renderFrameTrace (pickPending : Bool) : List FrameAct :=
  FrameAct.updateGpuData ::
    (if pickPending then callUnawaited selectObjectSegments frameDrawActs
     else frameDrawActs)

/-! ## Point-light shading (`standard-shaders.wgsl`, `calcPointLight`)

WGSL `f32` arithmetic is modelled by exact real arithmetic; `vec3f` is a
triple of reals with componentwise addition/subtraction and scalar
multiplication, matching the WGSL vector operators used by the shader. -/

/-- A WGSL `vec3f`. -/
abbrev Vec3 := ℝ × ℝ × ℝ

/-- WGSL `dot` on `vec3f`. -/
def dotV (a b : Vec3) : ℝ := a.1 * b.1 + a.2.1 * b.2.1 + a.2.2 * b.2.2

/-- WGSL `length` on `vec3f`. -/
noncomputable def lengthV (a : Vec3) : ℝ := Real.sqrt (dotV a a)

/-- WGSL `normalize` on `vec3f`: the vector divided by its length. -/
noncomputable def normalizeV (a : Vec3) : Vec3 := (lengthV a)⁻¹ • a

/-- The WGSL `Light` struct of `standard-shaders.wgsl`. -/
structure LightSrc where
  position : Vec3
  color : Vec3
  range : ℝ
  ambientStrength : ℝ
  diffuseStrength : ℝ
  specularStrength : ℝ

/-- `ambientColor` in `calcPointLight`: `light.color * light.ambientStrength`. -/
noncomputable def ambientColor (light : LightSrc) : Vec3 :=
  light.ambientStrength • light.color

/-- `diffuseFactor` in `calcPointLight`:
`max(dot(lightDirection, fragmentNormal), 0.0)`. -/
noncomputable def diffuseFactorOf (lightDirection fragmentNormal : Vec3) : ℝ :=
  max (dotV lightDirection fragmentNormal) 0

/-- `diffuseColor` in `calcPointLight`:
`light.color * light.diffuseStrength * diffuseFactor`. -/
noncomputable def diffuseColor (light : LightSrc) (diffuseFactor : ℝ) : Vec3 :=
  (light.diffuseStrength * diffuseFactor) • light.color

/-- The `specularColor` computation in `calcPointLight`: black unless
`diffuseFactor > 0.0`, in which case Blinn-Phong specular via the halfway
vector, `pow(max(dot(fragmentNormal, halfwayDirection), 0.0), shininess)`
scaled by material and light specular strengths. -/
noncomputable def specularColor (light : LightSrc)
    (fragmentNormal viewDirection lightDirection : Vec3)
    (matSpecularStrength matSpecularShininess : ℝ) (diffuseFactor : ℝ) : Vec3 :=
  if 0 < diffuseFactor then
    let halfwayDirection := normalizeV (lightDirection + viewDirection)
    let specularFactor :=
      Real.rpow (max (dotV fragmentNormal halfwayDirection) 0) matSpecularShininess
    (matSpecularStrength * light.specularStrength * specularFactor) • light.color
  else (0, 0, 0)

/-- `calcPointLight` of `standard-shaders.wgsl`: black if the fragment lies
beyond the light's range (`light.range < lightDistance`), otherwise the sum of
ambient, diffuse and specular colors scaled by the linear falloff
`(light.range - lightDistance) / light.range`. -/
noncomputable def calcPointLight (light : LightSrc)
    (fragmentPosition fragmentNormal viewDirection : Vec3)
    (matSpecularStrength matSpecularShininess : ℝ) : Vec3 :=
  let relativeLightPosition := light.position - fragmentPosition
  let lightDistance := lengthV relativeLightPosition
  if light.range < lightDistance then (0, 0, 0)
  else
    let lightStrength := (light.range - lightDistance) / light.range
    let lightDirection := normalizeV relativeLightPosition
    let dF := diffuseFactorOf lightDirection fragmentNormal
    lightStrength •
      (ambientColor light + diffuseColor light dF +
        specularColor light fragmentNormal viewDirection lightDirection
          matSpecularStrength matSpecularShininess dF)

/-! ## Normal matrix (`Renderer.#updateGpuData`)

`Renderer.#updateGpuData` computes, per mesh,
`mat3.fromMat4(mat4.transpose(mat4.inverse(modelMatrix)))` with the external
wgpu-matrix library; the library calls are modelled as exact matrix inverse,
transpose and upper-left 3×3 extraction over the reals. -/

/-- `mat3.fromMat4`: the upper-left 3×3 block of a 4×4 matrix. -/
def upper3x3 (m : Matrix (Fin 4) (Fin 4) ℝ) : Matrix (Fin 3) (Fin 3) ℝ :=
  Matrix.of fun i j => m i.castSucc j.castSucc

/-- The normal matrix as computed in `Renderer.#updateGpuData`:
`mat3.fromMat4(mat4.transpose(mat4.inverse(modelMatrix)))`. -/
noncomputable def normalMatrix (m : Matrix (Fin 4) (Fin 4) ℝ) :
    Matrix (Fin 3) (Fin 3) ℝ :=
  upper3x3 (m⁻¹).transpose

/-- Modelled from the spec: the normal matrix as the spec describes it,
`transpose(inverse(upper3x3(M)))`. -/
noncomputable def normalMatrixSpec (m : Matrix (Fin 4) (Fin 4) ℝ) :
    Matrix (Fin 3) (Fin 3) ℝ :=
  ((upper3x3 m)⁻¹).transpose

/-- An affine 4×4 model matrix: the last row (acting on column vectors) is
`(0, 0, 0, 1)`, i.e. no perspective part. -/
def IsAffine (m : Matrix (Fin 4) (Fin 4) ℝ) : Prop :=
  m 3 0 = 0 ∧ m 3 1 = 0 ∧ m 3 2 = 0 ∧ m 3 3 = 1

/-! ## Concrete sample data used by witnesses -/

/-- Sample light on the boundary case: range 1 at unit distance from the
origen. -/
noncomputable def demoLightBoundary : LightSrc :=
  ⟨((1:ℝ), (0:ℝ), (0:ℝ)), ((1:ℝ), (1:ℝ), (1:ℝ)), 1, 1, 1, 1⟩

/-- Sample light with range 4 at unit distance from the origen. -/
noncomputable def demoLightNear : LightSrc :=
  ⟨((1:ℝ), (0:ℝ), (0:ℝ)), ((1:ℝ), (1:ℝ), (1:ℝ)), 4, 1, 1, 1⟩

/-- Sample light with range 4 sitting exactly at the fragment. -/
noncomputable def demoLightAt : LightSrc :=
  ⟨((0:ℝ), (0:ℝ), (0:ℝ)), ((1:ℝ), (1:ℝ), (1:ℝ)), 4, 1, 1, 1⟩

/-- Sample fragment normal. -/
noncomputable def demoNormal : Vec3 := ((0:ℝ), (0:ℝ), (1:ℝ))

/-- Sample fragment normal facing away from `demoLightNear`. -/
noncomputable def demoBackNormal : Vec3 := ((-1:ℝ), (0:ℝ), (0:ℝ))

/-! ## Theorems -/

/-- C1, counterexample: with a pick pending, the selection update does *not*
precede the frame's draw submission — `#selectObject` is invoked without
`await`, so `renderFrame` records and submits the draw command buffer while
the pick's GPU round-trip is still outstanding. -/
theorem pick_not_resolved_before_draw :
    ¬ ((renderFrameTrace true).indexOf FrameAct.selectionResolve <
        (renderFrameTrace true).indexOf FrameAct.drawSubmit) := by
  decide

/-- C1 (corrected): with a pick pending, the picking pass is submitted before
the frame's draw submission, but the pick's GPU round-trip and the update of
`firstSelectedVertex`/`numSelectedVertices` complete only after the frame's
command buffer has been submitted; the pick does always resolve. -/
theorem pick_resolution_order :
    (renderFrameTrace true).indexOf FrameAct.selectPassSubmit <
      (renderFrameTrace true).indexOf FrameAct.drawSubmit ∧
    (renderFrameTrace true).indexOf FrameAct.drawSubmit <
      (renderFrameTrace true).indexOf FrameAct.selectionResolve ∧
    FrameAct.selectionResolve ∈ renderFrameTrace true := by
  decide

/-- C7, counterexample: a mesh list whose two meshes disagree on the vertex
layout (different strides) is packed without any configuration error. -/
theorem pack_layout_mismatch_not_detected :
    layoutsDisagree
        [⟨96, 8, ⟨12, []⟩⟩, ⟨60, 3, ⟨20, []⟩⟩] ∧
    initPack [⟨96, 8, ⟨12, []⟩⟩, ⟨60, 3, ⟨20, []⟩⟩] ≠ none := by
  refine ⟨⟨⟨96, 8, ⟨12, []⟩⟩, by simp, ⟨60, 3, ⟨20, []⟩⟩, by simp, by decide⟩, by decide⟩

/-- C7 (corrected): the packer performs no layout comparison at all — for
every non-empty mesh list (layouts agreeing or not) it produces a buffer,
using the first mesh's layout as the pipeline's vertex buffer layout. -/
theorem pack_uses_first_mesh_layout (meshList : List MeshSrc) (m0 : MeshSrc)
    (rest : List MeshSrc) (h : meshList = m0 :: rest) :
    initPack meshList =
      some ⟨[m0.layout], vbByteSize meshList, packRanges meshList 0⟩ := by
  subst h; rfl

/-- Witness for `pack_uses_first_mesh_layout` at a concrete two-mesh list with
disagreeing strides. -/
theorem pack_uses_first_mesh_layout_witness :
    initPack [⟨96, 8, ⟨12, []⟩⟩, ⟨60, 3, ⟨20, []⟩⟩] =
      some ⟨[⟨12, []⟩], vbByteSize [⟨96, 8, ⟨12, []⟩⟩, ⟨60, 3, ⟨20, []⟩⟩],
        packRanges [⟨96, 8, ⟨12, []⟩⟩, ⟨60, 3, ⟨20, []⟩⟩] 0⟩ :=
  pack_uses_first_mesh_layout _ _ _ rfl

/-- C9: `getSelectedTriangleId` reads the id-buffer entry at `width * y + x`
and returns `-1` exactly when that entry is the sentinel `2^32 - 1` (the clear
value of the id target); otherwise it returns the stored id unchanged. -/
theorem selected_triangle_id_sentinel (ids : List Nat) (width x y : Nat)
    (id : Nat) (h : ids[width * y + x]? = some id) :
    (getSelectedTriangleId ids width x y = some (-1) ↔ id = MAX_UNIT32) ∧
    (id ≠ MAX_UNIT32 → getSelectedTriangleId ids width x y = some (id : Int)) ∧
    MAX_UNIT32 = 2 ^ 32 - 1 := by
  refine ⟨?_, ?_, rfl⟩
  · unfold getSelectedTriangleId
    rw [h]
    constructor
    · intro hEq
      by_contra hne
      simp only [if_neg hne, Option.some.injEq] at hEq
      omega
    · intro hid; simp [hid]
  · intro hne
    unfold getSelectedTriangleId
    rw [h]
    simp [hne]

/-- Witness for `selected_triangle_id_sentinel`: a sentinel entry yields `-1`,
a non-sentinel entry is returned unchanged. -/
theorem selected_triangle_id_sentinel_witness :
    getSelectedTriangleId [5, MAX_UNIT32] 2 1 0 = some (-1) ∧
    getSelectedTriangleId [5, MAX_UNIT32] 2 0 0 = some ((5 : Nat) : Int) :=
  ⟨(selected_triangle_id_sentinel [5, MAX_UNIT32] 2 1 0 MAX_UNIT32 rfl).1.mpr rfl,
   (selected_triangle_id_sentinel [5, MAX_UNIT32] 2 0 0 5 rfl).2.1 (by decide)⟩

/-- The ranges produced by the packing loop carry exactly the meshes' vertex
counts, in order. -/
theorem packRanges_map_vertexCount (l : List MeshSrc) (a : Nat) :
    (packRanges l a).map (·.vertexCount) = l.map (·.vertexCount) := by
  induction l generalizing a with
  | nil => rfl
  | cons m rest ih => simp [packRanges, ih]

/-- The first range produced by the packing loop starts at the accumulator. -/
theorem packRanges_head_first (l : List MeshSrc) (a : Nat) (r : MeshRange)
    (h : (packRanges l a).head? = some r) : r.firstVertex = a := by
  cases l with
  | nil => exact absurd h (by simp [packRanges])
  | cons m rest =>
    have h2 : ({ firstVertex := a, vertexCount := m.vertexCount } : MeshRange) = r := by
      simpa [packRanges] using h
    rw [← h2]

/-- Each packed range starts exactly where the previous one ends. -/
theorem packRanges_chain (l : List MeshSrc) (a : Nat) :
    List.Chain' (fun r s => s.firstVertex = r.firstVertex + r.vertexCount)
      (packRanges l a) := by
  induction l generalizing a with
  | nil => simp [packRanges]
  | cons m rest ih =>
    rw [packRanges]
    refine List.Chain'.cons' (ih _) ?_
    intro s hs
    have hmem : (packRanges rest (a + m.vertexCount)).head? = some s :=
      Option.mem_def.mp hs
    exact packRanges_head_first rest (a + m.vertexCount) s hmem

/-- Byte lengths of a consistent mesh list sum to (total vertex count) ×
stride. -/
theorem sum_byteLength_eq (l : List MeshSrc) (stride : Nat)
    (hcons : ∀ m ∈ l, m.byteLength = m.vertexCount * stride) :
    (l.map (·.byteLength)).sum = ((l.map (·.vertexCount)).sum) * stride := by
  induction l with
  | nil => simp
  | cons m rest ih =>
    simp only [List.map_cons, List.sum_cons]
    rw [hcons m (by simp), ih (fun x hx => hcons x (by simp [hx])), Nat.add_mul]

/-- C6: the packing loop of `Renderer.init` yields ranges whose first range
starts at vertex 0, where each subsequent range starts exactly where the
previous one ends, and whose vertex counts sum to the vertex buffer byte
length divided by the shared vertex stride. -/
theorem pack_contiguous_and_sum (meshList : List MeshSrc) (stride : Nat)
    (hs : stride ≠ 0)
    (hcons : ∀ m ∈ meshList, m.byteLength = m.vertexCount * stride) :
    (∀ r, (packRanges meshList 0).head? = some r → r.firstVertex = 0) ∧
    List.Chain' (fun r s => s.firstVertex = r.firstVertex + r.vertexCount)
      (packRanges meshList 0) ∧
    ((packRanges meshList 0).map (·.vertexCount)).sum = vbByteSize meshList / stride := by
  refine ⟨fun r h => packRanges_head_first _ _ _ h, packRanges_chain _ _, ?_⟩
  rw [packRanges_map_vertexCount, vbByteSize, sum_byteLength_eq meshList stride hcons,
    Nat.mul_div_cancel _ (Nat.pos_of_ne_zero hs)]

/-- Witness for `pack_contiguous_and_sum` at a concrete two-mesh list
(stride 12, byte lengths 24 and 36, vertex counts 2 and 3). -/
theorem pack_contiguous_and_sum_witness :
    (({ firstVertex := 0, vertexCount := 2 } : MeshRange).firstVertex = 0) ∧
    List.Chain' (fun r s => s.firstVertex = r.firstVertex + r.vertexCount)
      (packRanges [⟨24, 2, ⟨12, []⟩⟩, ⟨36, 3, ⟨12, []⟩⟩] 0) ∧
    ((packRanges [⟨24, 2, ⟨12, []⟩⟩, ⟨36, 3, ⟨12, []⟩⟩] 0).map (·.vertexCount)).sum =
      vbByteSize [⟨24, 2, ⟨12, []⟩⟩, ⟨36, 3, ⟨12, []⟩⟩] / 12 := by
  have h := pack_contiguous_and_sum [⟨24, 2, ⟨12, []⟩⟩, ⟨36, 3, ⟨12, []⟩⟩] 12
    (by decide) (by decide)
  exact ⟨h.1 _ rfl, h.2.1, h.2.2⟩

/-- C4: resolving a pick whose newly computed selection range equals the
current one clears the selection instead of reselecting, and switching the
selection mode always clears the selection. -/
theorem selection_toggle (meshList : List MeshRange) (st : SelState) (t : Int)
    (ht : 0 ≤ t)
    (hEq : newSelection meshList st.mode (t * 3) =
      (st.firstSelectedVertex, st.numSelectedVertices)) :
    resolvePick meshList st t =
      { st with firstSelectedVertex := 0, numSelectedVertices := 0 } ∧
    ∀ st' : SelState,
      (switchSelectionMode meshList st').firstSelectedVertex = 0 ∧
      (switchSelectionMode meshList st').numSelectedVertices = 0 := by
  constructor
  · have h3 : ¬ t * 3 < 0 := by omega
    simp [resolvePick, selectVerticesFor, h3, hEq]
  · intro st'
    constructor <;> simp [switchSelectionMode, selectVerticesFor]

/-- Witness for `selection_toggle`: re-picking the already selected object
(mesh range `(0, 6)`, picked triangle 1) clears the selection; a mode switch
from an arbitrary state clears it too. -/
theorem selection_toggle_witness :
    resolvePick [⟨0, 6⟩] ⟨SelectionMode.Object, 0, 6⟩ 1 =
      { mode := SelectionMode.Object, firstSelectedVertex := 0,
        numSelectedVertices := 0 } ∧
    (switchSelectionMode [⟨0, 6⟩] ⟨SelectionMode.Face, 3, 3⟩).firstSelectedVertex = 0 ∧
    (switchSelectionMode [⟨0, 6⟩] ⟨SelectionMode.Face, 3, 3⟩).numSelectedVertices = 0 := by
  have h := selection_toggle [⟨0, 6⟩] ⟨SelectionMode.Object, 0, 6⟩ 1
    (by decide) (by decide)
  exact ⟨h.1, h.2 ⟨SelectionMode.Face, 3, 3⟩⟩

/-- The range computed for a pick is empty, a triangle, or a packed mesh's
full range. -/
theorem newSelection_shape (meshList : List MeshRange) (mode : SelectionMode)
    (t : Int) (ht : 0 ≤ t) :
    (∃ k : Nat, newSelection meshList mode (t * 3) = (3 * (k : Int), 3)) ∨
    newSelection meshList mode (t * 3) = (0, 0) ∨
    (∃ m ∈ meshList, newSelection meshList mode (t * 3) =
      ((m.firstVertex : Int), (m.vertexCount : Int))) := by
  cases mode with
  | Face =>
    left
    refine ⟨t.toNat, ?_⟩
    have h1 : ((t.toNat : Int)) = t := Int.toNat_of_nonneg ht
    show ((t * 3 : Int), (3 : Int)) = (3 * (t.toNat : Int), 3)
    rw [h1, mul_comm]
  | Object =>
    rw [newSelection]
    cases hfind : meshList.find? (fun m =>
        decide ((m.firstVertex : Int) ≤ t * 3) &&
        decide (t * 3 < (m.firstVertex : Int) + (m.vertexCount : Int))) with
    | none => right; left; rfl
    | some m => right; right; exact ⟨m, List.mem_of_find?_eq_some hfind, rfl⟩

/-- A single selection operation always leaves the selection state in one of
the three legal shapes, whatever the previous state was. -/
theorem selStep_invariant (meshList : List MeshRange) (st : SelState) (op : SelOp) :
    SelInvariant meshList (selStep meshList st op) := by
  cases op with
  | modeSwitch =>
    left
    constructor <;> simp [selStep, switchSelectionMode, selectVerticesFor]
  | clear =>
    left
    constructor <;> simp [selStep, selectVerticesFor]
  | pick t =>
    simp only [selStep, resolvePick, selectVerticesFor]
    by_cases hneg : t * 3 < 0
    · rw [if_pos hneg]; left; exact ⟨rfl, rfl⟩
    · rw [if_neg hneg]
      have ht : 0 ≤ t := by omega
      rcases newSelection_shape meshList st.mode t ht with ⟨k, hk⟩ | h0 | ⟨m, hm, hms⟩
      · by_cases hsame : (newSelection meshList st.mode (t * 3)).1 = st.firstSelectedVertex ∧
            (newSelection meshList st.mode (t * 3)).2 = st.numSelectedVertices
        · rw [if_pos hsame]; left; exact ⟨rfl, rfl⟩
        · rw [if_neg hsame]
          right; left
          exact ⟨k, by simp [hk], by simp [hk]⟩
      · by_cases hsame : (newSelection meshList st.mode (t * 3)).1 = st.firstSelectedVertex ∧
            (newSelection meshList st.mode (t * 3)).2 = st.numSelectedVertices
        · rw [if_pos hsame]; left; exact ⟨rfl, rfl⟩
        · rw [if_neg hsame]
          left
          exact ⟨by simp [h0], by simp [h0]⟩
      · by_cases hsame : (newSelection meshList st.mode (t * 3)).1 = st.firstSelectedVertex ∧
            (newSelection meshList st.mode (t * 3)).2 = st.numSelectedVertices
        · rw [if_pos hsame]; left; exact ⟨rfl, rfl⟩
        · rw [if_neg hsame]
          right; right
          exact ⟨m, hm, by simp [hms], by simp [hms]⟩

/-- Folding selection operations preserves the selection-shape invariant. -/
theorem runSelOps_invariant_aux (meshList : List MeshRange) (ops : List SelOp)
    (st : SelState) (h : SelInvariant meshList st) :
    SelInvariant meshList (ops.foldl (selStep meshList) st) := by
  induction ops generalizing st with
  | nil => exact h
  | cons op rest ih => exact ih _ (selStep_invariant meshList st op)

/-- C10: after every sequence of selection operations from the constructor
state, the selection is empty, a single triangle `(3k, 3)`, or exactly one
packed mesh's full range — never a partial or boundary-crossing range. -/
theorem selection_shape_invariant (meshList : List MeshRange) (ops : List SelOp) :
    SelInvariant meshList (runSelOps meshList ops) :=
  runSelOps_invariant_aux meshList ops initialSelState (Or.inl ⟨rfl, rfl⟩)

/-- The clamped interval of the draw loops is exactly the intersection of the
requested range with the mesh's own range. -/
theorem selIntersect_eq_Ico (mesh : MeshRange) (f n : Nat) :
    selIntersect mesh f n =
      Finset.Ico (max f mesh.firstVertex)
        (min (f + n) (mesh.firstVertex + mesh.vertexCount)) := by
  rw [selIntersect, Finset.Ico_inter_Ico]

/-- The vertex window of the wireframe draw call for one mesh is exactly the
intersection of the requested range with the mesh's range, and no call is
issued when that intersection is empty. -/
theorem wireframeDrawFor_window (mesh : MeshRange) (f n : Nat) :
    Option.map wireframeDrawWindow (wireframeDrawFor mesh f n) =
      if (selIntersect mesh f n).Nonempty then some (selIntersect mesh f n)
      else none := by
  rw [selIntersect_eq_Ico]
  rw [wireframeDrawFor]
  by_cases h : min (f + n) (mesh.firstVertex + mesh.vertexCount) ≤
      max f mesh.firstVertex
  · rw [if_pos h, if_neg]
    · rfl
    · simp only [Finset.nonempty_Ico, not_lt]
      exact h
  · rw [if_neg h, if_pos]
    · simp only [Option.map_some', wireframeDrawWindow, Option.some.injEq]
      congr 1 <;> omega
    · simp only [Finset.nonempty_Ico]
      omega

/-- The vertex window of the normals draw call for one mesh is exactly the
intersection of the requested range with the mesh's range, and no call is
issued when that intersection is empty. -/
theorem normalsDrawFor_window (mesh : MeshRange) (f n : Nat) (dt : Bool) :
    Option.map normalsDrawWindow (normalsDrawFor mesh f n dt) =
      if (selIntersect mesh f n).Nonempty then some (selIntersect mesh f n)
      else none := by
  rw [selIntersect_eq_Ico]
  rw [normalsDrawFor]
  by_cases h : min (f + n) (mesh.firstVertex + mesh.vertexCount) ≤
      max f mesh.firstVertex
  · rw [if_pos h, if_neg]
    · rfl
    · simp only [Finset.nonempty_Ico, not_lt]
      exact h
  · have hne : (Finset.Ico (max f mesh.firstVertex)
        (min (f + n) (mesh.firstVertex + mesh.vertexCount))).Nonempty :=
      Finset.nonempty_Ico.mpr (by omega)
    rw [if_neg h, if_pos hne]
    simp only [Option.map_some', normalsDrawWindow, Option.some.injEq]
    ext x
    simp only [Finset.mem_Ico]
    omega

/-- C8: for every selection range and every mesh list, the wireframe and
normals passes draw, per mesh, exactly the intersection of the selection range
with that mesh's own range, issue no draw call for a mesh whose intersection
is empty, and draw nothing when the selection range lies outside all meshes. -/
theorem draw_range_clamp (meshList : List MeshRange) (f n : Nat) (dt : Bool) :
    ((wireframeDraws meshList f n).map wireframeDrawWindow =
      meshList.filterMap (fun m =>
        if (selIntersect m f n).Nonempty then some (selIntersect m f n)
        else none)) ∧
    ((normalsDraws meshList f n dt).map normalsDrawWindow =
      meshList.filterMap (fun m =>
        if (selIntersect m f n).Nonempty then some (selIntersect m f n)
        else none)) ∧
    ((∀ m ∈ meshList, selIntersect m f n = ∅) →
      wireframeDraws meshList f n = [] ∧ normalsDraws meshList f n dt = []) := by
  refine ⟨?_, ?_, ?_⟩
  · rw [wireframeDraws, List.map_filterMap]
    simp only [wireframeDrawFor_window]
  · rw [normalsDraws, List.map_filterMap]
    simp only [normalsDrawFor_window]
  · intro h
    constructor
    · rw [wireframeDraws, List.filterMap_eq_nil_iff]
      intro m hm
      have hw := wireframeDrawFor_window m f n
      rw [h m hm, if_neg Finset.not_nonempty_empty] at hw
      exact Option.map_eq_none.mp hw
    · rw [normalsDraws, List.filterMap_eq_nil_iff]
      intro m hm
      have hw := normalsDrawFor_window m f n dt
      rw [h m hm, if_neg Finset.not_nonempty_empty] at hw
      exact Option.map_eq_none.mp hw

/-- Witness for `draw_range_clamp`: a selection range lying outside both
meshes produces no wireframe and no normals draw calls. -/
theorem draw_range_clamp_witness :
    wireframeDraws [⟨0, 6⟩, ⟨6, 3⟩] 10 5 = [] ∧
    normalsDraws [⟨0, 6⟩, ⟨6, 3⟩] 10 5 true = [] :=
  (draw_range_clamp [⟨0, 6⟩, ⟨6, 3⟩] 10 5 true).2.2 (by decide)

/-- Length of the unit x vector. -/
theorem lengthV_e1 : lengthV ((1:ℝ), (0:ℝ), (0:ℝ)) = 1 := by
  rw [lengthV, dotV]
  norm_num

/-- Length of the zero vector. -/
theorem lengthV_zero : lengthV ((0:ℝ), (0:ℝ), (0:ℝ)) = 0 := by
  rw [lengthV, dotV]
  norm_num

/-- C2: a point light contributes exactly zero to any fragment at distance
`d ≥ R` (hard cutoff beyond the range, and zero falloff at `d = R`), and for
`d < R` its contribution is the ambient+diffuse+specular sum scaled by exactly
`(R - d) / R`, which is full strength at `d = 0`. -/
theorem pointLight_falloff (light : LightSrc) (p n v : Vec3) (mss msh : ℝ) :
    (light.range ≤ lengthV (light.position - p) →
      calcPointLight light p n v mss msh = 0) ∧
    (lengthV (light.position - p) < light.range →
      calcPointLight light p n v mss msh =
        ((light.range - lengthV (light.position - p)) / light.range) •
          (ambientColor light +
            diffuseColor light (diffuseFactorOf (normalizeV (light.position - p)) n) +
            specularColor light n v (normalizeV (light.position - p)) mss msh
              (diffuseFactorOf (normalizeV (light.position - p)) n))) ∧
    (lengthV (light.position - p) = 0 → 0 < light.range →
      calcPointLight light p n v mss msh =
        ambientColor light +
          diffuseColor light (diffuseFactorOf (normalizeV (light.position - p)) n) +
          specularColor light n v (normalizeV (light.position - p)) mss msh
            (diffuseFactorOf (normalizeV (light.position - p)) n)) := by
  have key : ∀ _ : ¬ light.range < lengthV (light.position - p),
      calcPointLight light p n v mss msh =
        ((light.range - lengthV (light.position - p)) / light.range) •
          (ambientColor light +
            diffuseColor light (diffuseFactorOf (normalizeV (light.position - p)) n) +
            specularColor light n v (normalizeV (light.position - p)) mss msh
              (diffuseFactorOf (normalizeV (light.position - p)) n)) := by
    intro h
    rw [calcPointLight, if_neg h]
  refine ⟨?_, ?_, ?_⟩
  · intro h
    by_cases hlt : light.range < lengthV (light.position - p)
    · rw [calcPointLight, if_pos hlt]
      rfl
    · have hEq : lengthV (light.position - p) = light.range :=
        le_antisymm (not_lt.1 hlt) h
      rw [key hlt, hEq, sub_self, zero_div, zero_smul]
  · intro h
    exact key (not_lt.2 h.le)
  · intro h0 hR
    rw [key (by rw [h0]; exact not_lt.2 hR.le), h0, sub_zero,
      div_self (ne_of_gt hR), one_smul]

/-- Witness for `pointLight_falloff` at concrete lights: distance = range
(zero contribution), distance 1 within range 4 (scaled sum), and distance 0
(full-strength sum). -/
theorem pointLight_falloff_witness :
    calcPointLight demoLightBoundary 0 demoNormal demoNormal 1 32 = 0 ∧
    calcPointLight demoLightNear 0 demoNormal demoNormal 1 32 =
      ((demoLightNear.range - lengthV (demoLightNear.position - 0)) /
          demoLightNear.range) •
        (ambientColor demoLightNear +
          diffuseColor demoLightNear
            (diffuseFactorOf (normalizeV (demoLightNear.position - 0)) demoNormal) +
          specularColor demoLightNear demoNormal demoNormal
            (normalizeV (demoLightNear.position - 0)) 1 32
            (diffuseFactorOf (normalizeV (demoLightNear.position - 0)) demoNormal)) ∧
    calcPointLight demoLightAt 0 demoNormal demoNormal 1 32 =
      ambientColor demoLightAt +
        diffuseColor demoLightAt
          (diffuseFactorOf (normalizeV (demoLightAt.position - 0)) demoNormal) +
        specularColor demoLightAt demoNormal demoNormal
          (normalizeV (demoLightAt.position - 0)) 1 32
          (diffuseFactorOf (normalizeV (demoLightAt.position - 0)) demoNormal) := by
  have hsub1 : demoLightBoundary.position - (0 : Vec3) = ((1:ℝ), (0:ℝ), (0:ℝ)) := by
    simp [demoLightBoundary]
  have hsub2 : demoLightNear.position - (0 : Vec3) = ((1:ℝ), (0:ℝ), (0:ℝ)) := by
    simp [demoLightNear]
  have hsub3 : demoLightAt.position - (0 : Vec3) = ((0:ℝ), (0:ℝ), (0:ℝ)) := by
    simp [demoLightAt]
  refine ⟨(pointLight_falloff demoLightBoundary 0 demoNormal demoNormal 1 32).1 ?_,
         (pointLight_falloff demoLightNear 0 demoNormal demoNormal 1 32).2.1 ?_,
         (pointLight_falloff demoLightAt 0 demoNormal demoNormal 1 32).2.2 ?_ ?_⟩
  · rw [hsub1, lengthV_e1]
    norm_num [demoLightBoundary]
  · rw [hsub2, lengthV_e1]
    norm_num [demoLightNear]
  · rw [hsub3, lengthV_zero]
  · norm_num [demoLightAt]

/-- C3: whenever the diffuse factor `dot(lightDirection, fragmentNormal)` is
`≤ 0`, the light's specular contribution is exactly zero, and the light's
whole contribution is independent of view direction, material specular
strength and shininess. -/
theorem specular_skip (light : LightSrc) (p n v : Vec3) (mss msh : ℝ)
    (h : dotV (normalizeV (light.position - p)) n ≤ 0) :
    specularColor light n v (normalizeV (light.position - p)) mss msh
        (diffuseFactorOf (normalizeV (light.position - p)) n) =
      ((0:ℝ), (0:ℝ), (0:ℝ)) ∧
    ∀ (v2 : Vec3) (mss2 msh2 : ℝ),
      calcPointLight light p n v mss msh = calcPointLight light p n v2 mss2 msh2 := by
  have hdF : diffuseFactorOf (normalizeV (light.position - p)) n = 0 :=
    max_eq_right h
  constructor
  · rw [specularColor, hdF, if_neg (lt_irrefl (0:ℝ))]
  · intro v2 mss2 msh2
    rw [calcPointLight, calcPointLight]
    by_cases hlt : light.range < lengthV (light.position - p)
    · rw [if_pos hlt, if_pos hlt]
    · rw [if_neg hlt, if_neg hlt]
      simp [hdF, specularColor, lt_self_iff_false]

/-- Witness for `specular_skip`: a light directly in front of a back-facing
normal produces no specular term, and its contribution does not change when
the view direction, specular strength and shininess change. -/
theorem specular_skip_witness :
    specularColor demoLightNear demoBackNormal demoNormal
        (normalizeV (demoLightNear.position - 0)) 1 32
        (diffuseFactorOf (normalizeV (demoLightNear.position - 0)) demoBackNormal) =
      ((0:ℝ), (0:ℝ), (0:ℝ)) ∧
    calcPointLight demoLightNear 0 demoBackNormal demoNormal 1 32 =
      calcPointLight demoLightNear 0 demoBackNormal 0 2 5 := by
  have hsub : demoLightNear.position - (0 : Vec3) = ((1:ℝ), (0:ℝ), (0:ℝ)) := by
    simp [demoLightNear]
  have hdot : dotV (normalizeV (demoLightNear.position - 0)) demoBackNormal ≤ 0 := by
    rw [hsub, normalizeV, lengthV_e1]
    norm_num [dotV, demoBackNormal, Prod.smul_mk, smul_eq_mul]
  have h := specular_skip demoLightNear 0 demoBackNormal demoNormal 1 32 hdot
  exact ⟨h.1, h.2 0 2 5⟩

/-- C5: for every affine model matrix whose upper 3×3 block is invertible,
the normal matrix computed per frame as `upper3x3(transpose(inverse(M)))`
equals `transpose(inverse(upper3x3(M)))` (exact arithmetic). -/
theorem normal_matrix_eq (m : Matrix (Fin 4) (Fin 4) ℝ)
    (hAff : IsAffine m) (hdet : (upper3x3 m).det ≠ 0) :
    normalMatrix m = normalMatrixSpec m := by
  classical
  set A : Matrix (Fin 3) (Fin 3) ℝ := upper3x3 m with hA
  set t : Matrix (Fin 3) (Fin 1) ℝ := Matrix.of (fun i _ => m i.castSucc 3) with ht
  set e : Fin 3 ⊕ Fin 1 ≃ Fin 4 := finSumFinEquiv with he
  have hsub : m.submatrix e e = Matrix.fromBlocks A t 0 1 := by
    ext i j
    rcases i with i | i <;> rcases j with j | j
    · simp [he, Matrix.submatrix_apply, hA, upper3x3]
      rfl
    · have hj : j = 0 := Subsingleton.elim j 0
      subst hj
      simp [he, Matrix.submatrix_apply, ht]
      rfl
    · have hi : i = 0 := Subsingleton.elim i 0
      subst hi
      simp [he, Matrix.submatrix_apply]
      show m 3 j.castSucc = 0
      fin_cases j
      · exact hAff.1
      · exact hAff.2.1
      · exact hAff.2.2.1
    · have hi : i = 0 := Subsingleton.elim i 0
      have hj : j = 0 := Subsingleton.elim j 0
      subst hi; subst hj
      simp [he, Matrix.submatrix_apply]
      show m 3 3 = 1
      exact hAff.2.2.2
  have hunit : IsUnit A.det := isUnit_iff_ne_zero.mpr hdet
  have hAB : A * A⁻¹ = 1 := Matrix.mul_nonsing_inv A hunit
  set Q : Matrix (Fin 3 ⊕ Fin 1) (Fin 3 ⊕ Fin 1) ℝ :=
    Matrix.fromBlocks A⁻¹ (-(A⁻¹ * t)) (0 : Matrix (Fin 1) (Fin 3) ℝ)
      (1 : Matrix (Fin 1) (Fin 1) ℝ) with hQ
  have hPQ : Matrix.fromBlocks A t (0 : Matrix (Fin 1) (Fin 3) ℝ)
      (1 : Matrix (Fin 1) (Fin 1) ℝ) * Q = 1 := by
    rw [hQ, Matrix.fromBlocks_multiply]
    simp only [hAB, Matrix.mul_zero, Matrix.zero_mul, Matrix.mul_one,
      Matrix.mul_neg, add_zero, zero_add, neg_zero, ← Matrix.mul_assoc,
      Matrix.one_mul, neg_add_cancel, Matrix.fromBlocks_one]
  have hm : m = (Matrix.fromBlocks A t 0 1).submatrix e.symm e.symm := by
    rw [← hsub, Matrix.submatrix_submatrix]
    simp
  have hMN : m * Q.submatrix e.symm e.symm = 1 := by
    rw [hm, Matrix.submatrix_mul_equiv, hPQ, Matrix.submatrix_one_equiv]
  have hInv : m⁻¹ = Q.submatrix e.symm e.symm := Matrix.inv_eq_right_inv hMN
  rw [normalMatrix, normalMatrixSpec, hInv]
  ext i j
  show (Q.submatrix e.symm e.symm).transpose i.castSucc j.castSucc =
    (A⁻¹).transpose i j
  rw [Matrix.transpose_apply, Matrix.transpose_apply, Matrix.submatrix_apply]
  have hei : e.symm i.castSucc = Sum.inl i := by
    show finSumFinEquiv.symm (Fin.castAdd 1 i) = Sum.inl i
    exact finSumFinEquiv_symm_apply_castAdd i
  have hej : e.symm j.castSucc = Sum.inl j := by
    show finSumFinEquiv.symm (Fin.castAdd 1 j) = Sum.inl j
    exact finSumFinEquiv_symm_apply_castAdd j
  rw [hei, hej]
  rfl

/-- Witness for `normal_matrix_eq` at a non-uniform scale with translation. -/
theorem normal_matrix_eq_witness :
    normalMatrix !![2,0,0,7; 0,3,0,0; 0,0,1,0; 0,0,0,1] =
      normalMatrixSpec !![2,0,0,7; 0,3,0,0; 0,0,1,0; 0,0,0,1] := by
  have hup : upper3x3 !![2,0,0,7; 0,3,0,0; 0,0,1,0; 0,0,0,1] =
      !![2,0,0; 0,3,0; 0,0,1] := by
    ext i j
    fin_cases i <;> fin_cases j <;> rfl
  refine normal_matrix_eq _ ⟨rfl, rfl, rfl, rfl⟩ ?_
  rw [hup, Matrix.det_fin_three]
  norm_num

end WebGpu
